import Mathlib

/-!
Verification development for the two-tier genome dereplication pipeline in
`drep_modules/d_cluster.py`.  The Python tables (pandas DataFrames) are
embedded as lists of row structures, floating point values as rationals,
and external library calls (scipy linkage / fcluster) as function
parameters.  Python exceptions are modelled with an explicit error type and
`Except`-valued functions.
-/

set_option linter.unusedVariables false

namespace DRep

/-! ### Preliminaries: Python-style primitives -/

/-- Errors raised by the embedded code.  `dataIntegrity` models the
`sys.exit` in `cluster_hierarchical` (which pickles — retains — the
offending matrix first); the other constructors model the corresponding
Python exceptions. -/
inductive PyErr where
  | dataIntegrity (mat : List (List ℚ))
  | unboundLocal (name : String)
  | assertionError (msg : String)
  | nameError (name : String)
  | indexError (msg : String)
  | valueError (msg : String)
deriving Repr, DecidableEq

/-- Models `pandas.Series.unique()`: deduplication keeping the first
occurrence of each value, in order. -/
def firstDedup {α : Type} [DecidableEq α] (l : List α) : List α :=
  l.foldl (fun acc x => if x ∈ acc then acc else acc ++ [x]) []

/-- Insert a string into a sorted list (ordering step of a pandas pivot,
which sorts its index and column labels). -/
def insertSorted (x : String) : List String → List String
  | [] => [x]
  | y :: ys => if x ≤ y then x :: y :: ys else y :: insertSorted x ys

/-- Lexicographic sort of labels, as a pandas pivot applies to its index
and columns. -/
def sortStrings (l : List String) : List String := l.foldr insertSorted []

/-- Value of a decimal digit character, if it is one. -/
def digitVal (c : Char) : Option Nat :=
  if 48 ≤ c.toNat && c.toNat ≤ 57 then some (c.toNat - 48) else none

/-- Digit-accumulation loop for `natOfDigits`. -/
def natOfDigitsGo : List Char → Nat → Option Nat
  | [], acc => some acc
  | c :: cs, acc =>
    match digitVal c with
    | some d => natOfDigitsGo cs (acc * 10 + d)
    | none => none

/-- Accumulate decimal digits; `none` on a non-digit or on no digits. -/
def natOfDigits : List Char → Option Nat
  | [] => none
  | cs => natOfDigitsGo cs 0

/-- Models Python `int(s)` on a whitespace-free token: optional sign
followed by decimal digits, `none` (a ValueError) otherwise. -/
def toIntPy (s : String) : Option Int :=
  match s.data with
  | '-' :: rest => (natOfDigits rest).map (fun n => -(n : Int))
  | '+' :: rest => (natOfDigits rest).map (fun n => (n : Int))
  | l => (natOfDigits l).map (fun n => (n : Int))

/-- Models Python `s.startswith(c)` for a single character. -/
def startsWithChar (s : String) (c : Char) : Bool :=
  match s.data with
  | [] => false
  | a :: _ => a == c

/-- Models `os.path.basename`: the text after the last `/`. -/
def basenamePy (s : String) : String :=
  ⟨s.data.foldl (fun acc c => if c == '/' then [] else acc ++ [c]) []⟩

/-! ### Table rows

Each pandas DataFrame is a list of rows; a row structure carries the
columns the clustering code reads. -/

/-- A row of Bdb: the input genome table. -/
structure BdbRow where
  genome : String
  location : String
deriving Repr, DecidableEq

/-- A row of Mdb: the raw MASH (coarse comparator) table. -/
structure MdbRow where
  genome1 : String
  genome2 : String
  similarity : ℚ
deriving Repr, DecidableEq

/-- A row of Cdb as consumed by the fine stage: a genome and its coarse
(MASH) cluster id. -/
structure CdbRow where
  genome : String
  MASH_cluster : Nat
deriving Repr, DecidableEq

/-- A row of Ndb restricted to the columns the fine clustering stage
reads. -/
structure NdbRow where
  querry : String
  reference : String
  ani : ℚ
  alignment_coverage : ℚ
  ref_coverage : ℚ
deriving Repr, DecidableEq, Inhabited

/-- A full row of Ndb as produced by `process_deltadir`. -/
structure NdbFullRow where
  querry : String
  reference : String
  alignment_length : ℤ
  similarity_errors : ℤ
  ani : ℚ
  ref_coverage : ℚ
  querry_coverage : ℚ
  reference_length : ℤ
  querry_length : ℤ
  alignment_coverage : ℚ
deriving Repr, DecidableEq

/-- A row of the Cdb produced by `gen_nomash_cdb` (a copy of Bdb with the
`MASH_cluster` column added). -/
structure NoMashCdbRow where
  genome : String
  location : String
  MASH_cluster : Nat
deriving Repr, DecidableEq

/-- A row of `pd.merge(Bdb, Cdb)` as used by `run_anin_on_clusters`. -/
structure BCRow where
  genome : String
  location : String
  MASH_cluster : Nat
deriving Repr, DecidableEq

/-- A row of the fine-stage output table `pd.merge(Gdb, Cdb)`. -/
structure MergedRow where
  genome : String
  ANIn_cluster : String
  MASH_cluster : Nat
deriving Repr, DecidableEq

/-! ### Graphs (networkx embedding) -/

/-- An undirected multigraph as built through `networkx.Graph.add_node` /
`add_edge`: an insertion-ordered duplicate-free node list and an edge
list. -/
structure NXGraph where
  nodes : List String
  edges : List (String × String)
deriving Repr, DecidableEq

def emptyGraph : NXGraph := ⟨[], []⟩

/-- Models `G.add_node(v)`. -/
def addNode (g : NXGraph) (v : String) : NXGraph :=
  if v ∈ g.nodes then g else ⟨g.nodes ++ [v], g.edges⟩

/-- Models `G.add_edge(a, b)` (which also registers missing endpoints as
nodes). -/
def addEdge (g : NXGraph) (a b : String) : NXGraph :=
  let g1 := addNode (addNode g a) b
  ⟨g1.nodes, g1.edges ++ [(a, b)]⟩

/-- Source `make_graph`: one node per value of `genome1`, an edge for each
row whose similarity exceeds the threshold. -/
def make_graph (df : List MdbRow) (threshold : ℚ) : NXGraph :=
  let g := (firstDedup (df.map (fun r => r.genome1))).foldl addNode emptyGraph
  df.foldl (fun g r => if threshold < r.similarity then addEdge g r.genome1 r.genome2 else g) g

/-- Source `make_graph_anin`: one node per value of `reference`, an edge
for each row whose `ref_coverage` exceeds `cov_thresh` and whose `ani`
exceeds `anin_thresh`. -/
def make_graph_anin (df : List NdbRow) (cov_thresh anin_thresh : ℚ) : NXGraph :=
  let g := (firstDedup (df.map (fun r => r.reference))).foldl addNode emptyGraph
  df.foldl (fun g r =>
    if cov_thresh < r.ref_coverage ∧ anin_thresh < r.ani
    then addEdge g r.reference r.querry else g) g

/-- One merging step of the connected-component computation: the
components touched by the edge are united. -/
def addEdgeComp (comps : List (List String)) (e : String × String) : List (List String) :=
  (comps.filter (fun c => decide (e.1 ∈ c) || decide (e.2 ∈ c))).flatten ::
    comps.filter (fun c => !(decide (e.1 ∈ c) || decide (e.2 ∈ c)))

/-- Models `networkx.connected_component_subgraphs`: the partition of the
node set into connected components, computed by starting from singleton
components and merging along every edge. -/
def connectedComponents (g : NXGraph) : List (List String) :=
  g.edges.foldl addEdgeComp (g.nodes.map (fun v => [v]))

/-- Label the components with the running counter of `cluster_graph`. -/
def labelComps : Nat → List (List String) → List (Nat × String)
  | _, [] => []
  | n, c :: rest => c.map (fun v => (n, v)) ++ labelComps (n + 1) rest

/-- Source `cluster_graph`: one output row per node, labelled by the
index of its connected component in discovery order. -/
def cluster_graph (g : NXGraph) : List (Nat × String) :=
  labelComps 0 (connectedComponents g)

/-! ### Hierarchical clustering (`cluster_hierarchical`) -/

/-- The matrix is square. -/
def isSquare (m : List (List ℚ)) : Bool :=
  m.all (fun row => row.length == m.length)

/-- The elementwise check `(D == D.T).all()` performed by
`scipy.spatial.distance.squareform` on a square matrix. -/
def symCheckB (m : List (List ℚ)) : Bool :=
  (List.range m.length).all (fun i => (List.range m.length).all (fun j =>
    (m.getD i []).getD j 0 == (m.getD j []).getD i 0))

/-- The zero-diagonal check performed by `squareform`. -/
def diagZero (m : List (List ℚ)) : Bool :=
  (List.range m.length).all (fun i => (m.getD i []).getD i 0 == 0)

/-- The validity condition under which `squareform` succeeds. -/
def squareform_ok (m : List (List ℚ)) : Bool :=
  isSquare m && symCheckB m && diagZero m

/-- The condensed (upper-triangle, row-major) form returned by a
successful `squareform`. -/
def squareform_condensed (m : List (List ℚ)) : List ℚ :=
  (List.range m.length).flatMap (fun i =>
    ((List.range m.length).filter (fun j => i < j)).map (fun j => (m.getD i []).getD j 0))

/-- The transpose of a square matrix, indexwise (`numpy`'s `.T`). -/
def transposeM (m : List (List ℚ)) : List (List ℚ) :=
  (List.range m.length).map (fun j => m.map (fun row => row.getD j 0))

/-- A distance DataFrame as passed to `cluster_hierarchical`: column
names plus the value matrix. -/
structure DistDb where
  names : List String
  mat : List (List ℚ)

/-- Source `gen_cdb_from_fclust`: pair each flat-cluster label with the
name at the same position.  (With label and name lists of equal length,
as scipy guarantees, the zip is exactly the Python loop.) -/
def gen_cdb_from_fclust (fclust : List Nat) (names : List String) : List (Nat × String) :=
  fclust.zip names

/-- Source `cluster_hierarchical`.  The scipy calls are parameters:
`linkfn` models `scipy.cluster.hierarchy.linkage` (given the method and
the condensed matrix) and `fclustfn` models `fcluster` (given the linkage
and the cutoff).  A `squareform` failure — in particular an asymmetric
matrix — is caught by the bare `except:`, the offending matrix is saved,
and the process exits: modelled as a `dataIntegrity` error carrying the
matrix. -/
def cluster_hierarchical {L : Type} (linkfn : String → List ℚ → L)
    (fclustfn : L → ℚ → List Nat) (linkage_method : String) (linkage_cutoff : ℚ)
    (db : DistDb) : Except PyErr (List (Nat × String) × L) :=
  if squareform_ok db.mat then
    let arr := squareform_condensed db.mat
    let linkage := linkfn linkage_method arr
    let fclust := fclustfn linkage linkage_cutoff
    .ok (gen_cdb_from_fclust fclust db.names, linkage)
  else
    .error (.dataIntegrity db.mat)

/-! ### Fine (ANIn) clustering stage -/

/-- The genomes of one coarse cluster:
`Cdb['genome'][Cdb['MASH_cluster'] == cluster].tolist()`. -/
def clusterMembers (Cdb : List CdbRow) (cluster : Nat) : List String :=
  (Cdb.filter (fun r => r.MASH_cluster == cluster)).map (fun r => r.genome)

/-- Source `d.loc[d['alignment_coverage'] <= cov_thresh, 'ani'] = 0`:
zero the identity of every row without enough coverage. -/
def zero_low_cov (cov_thresh : ℚ) (d : List NdbRow) : List NdbRow :=
  d.map (fun r =>
    if r.alignment_coverage ≤ cov_thresh
    then ⟨r.querry, r.reference, 0, r.alignment_coverage, r.ref_coverage⟩
    else r)

/-- Source `average_ani`: 1 for a self pair; otherwise the mean of the
row's own identity and the identity of the reversed pair, looked up as
the first row with `reference == g1` and `querry == g2`.  (In the source
an absent reversed pair would be an IndexError; the all-pairs tables the
pipeline builds always contain it, so the lookup defaults are never
reached in context.) -/
def average_ani (row : NdbRow) (db : List NdbRow) : ℚ :=
  if row.querry = row.reference then 1
  else
    let ani1 := row.ani
    let ani2 := (((db.filter (fun r =>
        decide (r.reference = row.querry) && decide (r.querry = row.reference))).map
          (fun r => r.ani)).head?).getD 0
    (ani1 + ani2) / 2

/-- The two derived columns `d['av_ani']` and `d['dist'] = 1 - d['av_ani']`
added to the per-cluster table. -/
def with_av_dist (d : List NdbRow) : List (NdbRow × ℚ × ℚ) :=
  d.map (fun r => (r, average_ani r d, 1 - average_ani r d))

/-- Source `d.pivot("reference", "querry", "dist")`: rows indexed by the
sorted references, columns by the sorted querries.  (A missing
combination would be a NaN; the all-pairs tables the pipeline builds
contain every combination.) -/
def pivotDist (rows : List (NdbRow × ℚ × ℚ)) : DistDb :=
  let refs := sortStrings (firstDedup (rows.map (fun r => r.1.reference)))
  let qrys := sortStrings (firstDedup (rows.map (fun r => r.1.querry)))
  ⟨qrys, refs.map (fun i => qrys.map (fun j =>
    ((rows.filter (fun r =>
        decide (r.1.reference = i) && decide (r.1.querry = j))).map
          (fun r => r.2.2)).headI))⟩

/-- The body of the per-coarse-cluster loop of `cluster_anin_database`
(hierarchical method): filter Ndb to the cluster, zero low-coverage
identities, short-circuit a single-reference cluster to fine id 0, and
otherwise average, pivot and hierarchically cluster, emitting
`"<coarseId>_<fineId>"` labels. -/
def anin_process_cluster {L : Type} (linkfn : String → List ℚ → L)
    (fclustfn : L → ℚ → List Nat) (N_Lmethod : String) (N_Lcutoff cov_thresh : ℚ)
    (Cdb : List CdbRow) (Ndb : List NdbRow) (cluster : Nat) :
    Except PyErr (List (String × String)) :=
  let d0 := Ndb.filter (fun r => decide (r.reference ∈ clusterMembers Cdb cluster))
  let d := zero_low_cov cov_thresh d0
  let refs := firstDedup (d.map (fun r => r.reference))
  if refs.length == 1 then
    .ok [(refs.headI, toString cluster ++ "_0")]
  else
    let rows := with_av_dist d
    let db := pivotDist rows
    match cluster_hierarchical linkfn fclustfn N_Lmethod N_Lcutoff db with
    | .error e => .error e
    | .ok (gdb, _) =>
      .ok ((firstDedup (gdb.map (fun p => p.1))).flatMap (fun cl =>
        (gdb.filter (fun p => p.1 == cl)).map (fun p =>
          (p.2, toString cluster ++ "_" ++ toString cl))))

/-- Source `pd.merge(Gdb, Cdb)`: inner join on the shared `genome`
column. -/
def mergeOnGenome (gdb : List (String × String)) (Cdb : List CdbRow) : List MergedRow :=
  gdb.flatMap (fun fr =>
    (Cdb.filter (fun cr => cr.genome == fr.1)).map (fun cr =>
      ⟨fr.1, fr.2, cr.MASH_cluster⟩))

/-- Source `cluster_anin_database`.  The `'simple'` branch evaluates the
name `ANIn`, which is unbound — the popped threshold was stored in the
variable `ANIm` — so it raises a NameError before anything runs; a method
that is neither `'simple'` nor `'hierarchical'` reaches
`pd.DataFrame(Table)` with `Table` unbound.  The hierarchical branch runs
the per-cluster loop and merges the labels with Cdb. -/
def cluster_anin_database {L : Type} (linkfn : String → List ℚ → L)
    (fclustfn : L → ℚ → List Nat) (Cdb : List CdbRow) (Ndb : List NdbRow)
    (method : String) (cov_thresh N_Lcutoff : ℚ) (N_Lmethod : String) :
    Except PyErr (List MergedRow) :=
  if method == "simple" then
    .error (.nameError "ANIn")
  else if method == "hierarchical" then
    match (firstDedup (Cdb.map (fun r => r.MASH_cluster))).foldlM
        (fun acc c =>
          (anin_process_cluster linkfn fclustfn N_Lmethod N_Lcutoff cov_thresh Cdb Ndb c).map
            (fun t => acc ++ t)) [] with
    | .error e => .error e
    | .ok gdb => .ok (mergeOnGenome gdb Cdb)
  else
    .error (.nameError "Table")

/-- Source `cluster_anin_simple` (the intended threshold-graph variant,
reachable only once `cluster_anin_database` passes it the threshold):
connected components of `make_graph_anin` per coarse cluster, with
composite labels, merged with Cdb. -/
def cluster_anin_simple (Cdb : List CdbRow) (Ndb : List NdbRow)
    (ANIn cov_thresh : ℚ) : List MergedRow :=
  mergeOnGenome
    ((firstDedup (Cdb.map (fun r => r.MASH_cluster))).flatMap (fun cluster =>
      let d := Ndb.filter (fun r => decide (r.reference ∈ clusterMembers Cdb cluster))
      let df := cluster_graph (make_graph_anin d cov_thresh ANIn)
      (firstDedup (df.map (fun p => p.1))).flatMap (fun cl =>
        (df.filter (fun p => p.1 == cl)).map (fun p =>
          (p.2, toString cluster ++ "_" ++ toString cl)))))
    Cdb

/-! ### Alignment job generation (`run_anin_on_clusters`) -/

/-- Source `get_genome_name_from_fasta`: `os.path.basename`. -/
def get_genome_name_from_fasta (fasta : String) : String :=
  basenamePy fasta

/-- Source `gen_nucmer_cmd`: the nucmer invocation for one ordered
pair. -/
def gen_nucmer_cmd (pfx ref querry : String) (c maxgap : Nat) (noextend : Bool)
    (method : String) : List String :=
  ["nucmer", "--" ++ method, "-p", pfx, "-c", toString c, "-g", toString maxgap]
    ++ (if noextend then ["--noextend"] else []) ++ [ref, querry]

/-- Source `gen_nucmer_commands`: the full ordered cross-product of
pairs — `n * n` jobs for `n` genomes, self pairs included. -/
def gen_nucmer_commands (genomes : List String) (outf : String) (c maxgap : Nat)
    (noextend : Bool) (method : String) : List (List String) :=
  genomes.flatMap (fun g1 => genomes.map (fun g2 =>
    gen_nucmer_cmd
      (outf ++ get_genome_name_from_fasta g1 ++ "_vs_" ++ get_genome_name_from_fasta g2)
      g1 g2 c maxgap noextend method))

/-- The command list built by Step 1 of `run_anin_on_clusters` over the
merged Bdb/Cdb table: for every coarse cluster, the cross-product of its
genome locations (the method argument is the literal `'mum'` at the call
site). -/
def run_anin_commands (bdb : List BCRow) (ANIn_folder : String) (n_c n_maxgap : Nat)
    (n_noextend : Bool) : List (List String) :=
  (firstDedup (bdb.map (fun r => r.MASH_cluster))).flatMap (fun cluster =>
    gen_nucmer_commands
      ((bdb.filter (fun r => r.MASH_cluster == cluster)).map (fun r => r.location))
      (ANIn_folder ++ toString cluster ++ "/") n_c n_maxgap n_noextend "mum")

/-! ### Delta-file parsing (`parse_delta`, `process_deltadir`) -/

/-- The accumulating loop of `parse_delta` over the stripped-and-split
lines of a `.delta` file.  An empty line makes `line[0]` an IndexError; a
qualifying 7-field line whose coordinate or error fields are not integer
literals makes `int(...)` a ValueError. -/
def parse_delta_go : ℤ → ℤ → List (List String) → Except PyErr (ℤ × ℤ)
  | aln_length, sim_errors, [] => .ok (aln_length, sim_errors)
  | aln_length, sim_errors, line :: rest =>
    match line with
    | [] => .error (.indexError "list index out of range")
    | w :: _ =>
      if w == "NUCMER" || startsWithChar w '>' then
        parse_delta_go aln_length sim_errors rest
      else if line.length == 7 then
        match toIntPy (line.getD 0 ""), toIntPy (line.getD 1 ""), toIntPy (line.getD 4 "") with
        | some c0, some c1, some e =>
          parse_delta_go (aln_length + |c1 - c0|) (sim_errors + e) rest
        | _, _, _ => .error (.valueError "invalid literal for int")
      else
        parse_delta_go aln_length sim_errors rest

/-- Source `parse_delta` on a tokenized file: cumulative aligned length
and similarity errors. -/
def parse_delta (lines : List (List String)) : Except PyErr (ℤ × ℤ) :=
  parse_delta_go 0 0 lines

/-- A tokenized `.delta` artifact: the query and reference names
recovered from the `<query>_vs_<reference>` filename, and the
stripped-and-split lines. -/
structure DeltaFile where
  qname : String
  sname : String
  lines : List (List String)
deriving Repr, DecidableEq

/-- Well-formedness of one tokenized line: not blank, and when it is a
qualifying 7-field data line, its coordinate and error fields are integer
literals.  Every line of an artifact in the NUCmer delta format satisfies
this. -/
def wfLine (l : List String) : Bool :=
  match l with
  | [] => false
  | w :: _ =>
    if w == "NUCMER" || startsWithChar w '>' then true
    else if l.length == 7 then
      (toIntPy (l.getD 0 "")).isSome && (toIntPy (l.getD 1 "")).isSome
        && (toIntPy (l.getD 4 "")).isSome
    else true

/-- Well-formedness of a tokenized file. -/
def wfLines (lines : List (List String)) : Bool := lines.all wfLine

/-- Specification-side qualifier, from the spec's words: a data line
qualifies when its first token is neither the run-header token nor
`>`-prefixed and it has exactly 7 whitespace-delimited fields. -/
def spec_qualifies (l : List String) : Bool :=
  (match l.head? with
   | some w => !(w == "NUCMER" || startsWithChar w '>')
   | none => false) && l.length == 7

/-- Specification-side aligned length, from the spec's words: the sum of
the absolute differences of fields 1 and 2 over the qualifying lines. -/
def spec_aligned_length (lines : List (List String)) : ℤ :=
  ((lines.filter spec_qualifies).map (fun l =>
    |((toIntPy (l.getD 1 "")).getD 0) - ((toIntPy (l.getD 0 "")).getD 0)|)).sum

/-- Specification-side mismatch count, from the spec's words: the sum of
field 5 over the qualifying lines. -/
def spec_sim_errors (lines : List (List String)) : ℤ :=
  ((lines.filter spec_qualifies).map (fun l => (toIntPy (l.getD 4 "")).getD 0)).sum

/-- The Ndb row `process_deltadir` emits for one artifact whose parse
succeeded with totals `(tot_length, tot_sim_error)`: coverages from the
genome-length map, and identity `1 - err/len`, with the ZeroDivisionError
at `len = 0` caught and replaced by identity 0. -/
def deltadir_row (org_lengths : String → ℤ) (f : DeltaFile)
    (tot_length tot_sim_error : ℤ) : NdbFullRow :=
  let query_cover : ℚ := (tot_length : ℚ) / (org_lengths f.qname : ℚ)
  let sbjct_cover : ℚ := (tot_length : ℚ) / (org_lengths f.sname : ℚ)
  let perc_id : ℚ := if tot_length = 0 then 0 else 1 - (tot_sim_error : ℚ) / (tot_length : ℚ)
  ⟨f.qname, f.sname, tot_length, tot_sim_error, perc_id, sbjct_cover, query_cover,
    org_lengths f.sname, org_lengths f.qname,
    ((tot_length * 2 : ℤ) : ℚ) / ((org_lengths f.qname : ℚ) + (org_lengths f.sname : ℚ))⟩

/-- The accumulating loop of `process_deltadir` over the artifacts. -/
def process_deltadir_go (org_lengths : String → ℤ) :
    List NdbFullRow → List DeltaFile → Except PyErr (List NdbFullRow)
  | acc, [] => .ok acc
  | acc, f :: fs =>
    match parse_delta f.lines with
    | .error e => .error e
    | .ok (tot_length, tot_sim_error) =>
      process_deltadir_go org_lengths
        (acc ++ [deltadir_row org_lengths f tot_length tot_sim_error]) fs

/-- Source `process_deltadir` over the tokenized artifacts of one
directory: one Ndb row per artifact, in order.  (The zero-length warning
print and the `zero_error` flag change no data.) -/
def process_deltadir (files : List DeltaFile) (org_lengths : String → ℤ) :
    Except PyErr (List NdbFullRow) :=
  process_deltadir_go org_lengths [] files

/-! ### Orchestrator (`cluster_genomes`) -/

/-- Source `gen_nomash_cdb`: a copy of Bdb with every genome put in MASH
cluster 0. -/
def gen_nomash_cdb (bdb : List BdbRow) : List NoMashCdbRow :=
  bdb.map (fun r => ⟨r.genome, r.location, 0⟩)

/-- Source `gen_nomani_cdb`: an unconditional `assert False` — the
skip-ANIn path is explicitly unwritten. -/
def gen_nomani_cdb {M C : Type} (bdb : List BdbRow) (mdb : M) : Except PyErr C :=
  .error (.assertionError "this part of the program is not written yet")

/-- Source `cluster_genomes`, with the I/O-performing stages as
parameters: `mashFn` models `all_vs_all_MASH`, `coarseFn` models
`cluster_mash_database`, `aninFn` models `run_anin_on_clusters` and
`fineFn` models `cluster_anin_database` (which can exit, hence
`Except`-valued).  The Python locals `Mdb` and `Ndb` are only assigned on
the branches that compute them; referencing them otherwise raises
UnboundLocalError, modelled through the `Option` value. -/
def cluster_genomes {M N F : Type} (mashFn : List BdbRow → M)
    (coarseFn : M → List NoMashCdbRow) (aninFn : List BdbRow → List NoMashCdbRow → N)
    (fineFn : List NoMashCdbRow → N → Except PyErr F)
    (bdb : List BdbRow) (skipMash skipANIn : Bool) : Except PyErr (F × M × N) :=
  let mdbOpt : Option M := if skipMash then none else some (mashFn bdb)
  let cdb : List NoMashCdbRow :=
    match mdbOpt with
    | some mdb => coarseFn mdb
    | none => gen_nomash_cdb bdb
  if skipANIn then
    match mdbOpt with
    | none => .error (.unboundLocal "Mdb")
    | some mdb =>
      match (gen_nomani_cdb bdb mdb : Except PyErr F) with
      | .error e => .error e
      | .ok _ => .error (.unboundLocal "Ndb")
  else
    let ndb := aninFn bdb cdb
    match fineFn cdb ndb with
    | .error e => .error e
    | .ok f =>
      match mdbOpt with
      | some mdb => .ok (f, mdb, ndb)
      | none => .error (.unboundLocal "Mdb")

/-! ### Matrix symmetry lemmas -/

/-- Propositional form of `isSquare`. -/
def SquareP (m : List (List ℚ)) : Prop := ∀ row ∈ m, row.length = m.length

/-- Propositional form of `symCheckB`. -/
def SymP (m : List (List ℚ)) : Prop :=
  ∀ i j, i < m.length → j < m.length → (m.getD i []).getD j 0 = (m.getD j []).getD i 0

lemma isSquare_eq_true_iff (m : List (List ℚ)) : isSquare m = true ↔ SquareP m := by
  simp [isSquare, SquareP, List.all_eq_true]

lemma symCheckB_eq_true_iff (m : List (List ℚ)) : symCheckB m = true ↔ SymP m := by
  simp only [symCheckB, List.all_eq_true, List.mem_range, beq_iff_eq]
  constructor
  · intro h i j hi hj; exact h i hi j hj
  · intro h i hi j hj; exact h i j hi hj

lemma transposeM_length (m : List (List ℚ)) : (transposeM m).length = m.length := by
  simp [transposeM]

lemma transposeM_entry (m : List (List ℚ)) (i j : Nat) (hi : i < m.length)
    (hj : j < m.length) :
    ((transposeM m).getD i []).getD j 0 = (m.getD j []).getD i 0 := by
  have hi' : i < (transposeM m).length := by rw [transposeM_length]; exact hi
  rw [List.getD_eq_getElem (transposeM m) [] hi']
  have hrow : (transposeM m)[i] = m.map (fun row => row.getD i 0) := by
    simp [transposeM]
  rw [hrow]
  have hj' : j < (m.map (fun row => row.getD i 0)).length := by
    rw [List.length_map]; exact hj
  rw [List.getD_eq_getElem _ 0 hj', List.getElem_map, List.getD_eq_getElem m [] hj]

lemma sym_entries_transpose_eq (m : List (List ℚ)) (hsq : SquareP m) (hsym : SymP m) :
    transposeM m = m := by
  apply List.ext_getElem (transposeM_length m)
  intro i h1 h2
  have hrow : (transposeM m)[i] = m.map (fun row => row.getD i 0) := by
    simp [transposeM]
  rw [hrow]
  have hmi : m[i] ∈ m := List.getElem_mem h2
  have hlen : (m.map (fun row => row.getD i 0)).length = m[i].length := by
    rw [List.length_map, hsq m[i] hmi]
  apply List.ext_getElem hlen
  intro j hj1 hj2
  have hj : j < m.length := by
    have := hsq m[i] hmi
    omega
  rw [List.getElem_map]
  have e1 : m[j].getD i 0 = (m.getD j []).getD i 0 := by
    rw [List.getD_eq_getElem m [] hj]
  have e2 : m[i][j] = (m.getD i []).getD j 0 := by
    rw [List.getD_eq_getElem m [] h2, List.getD_eq_getElem _ 0 hj2]
  rw [e1, e2, hsym i j h2 hj]

lemma SymP_of_transposeM (m : List (List ℚ)) (h : SymP (transposeM m)) : SymP m := by
  intro i j hi hj
  have hlen := transposeM_length m
  have := h i j (by rw [hlen]; exact hi) (by rw [hlen]; exact hj)
  rw [transposeM_entry m i j hi hj, transposeM_entry m j i hj hi] at this
  exact this.symm

/-- C1: a distance matrix that is not symmetric makes
`cluster_hierarchical` abort with the data-integrity exit, carrying (and
so retaining) the offending matrix and producing no cluster assignment;
the transpose of that matrix aborts the same way. -/
theorem C1_asymmetric_abort {L : Type} (linkfn : String → List ℚ → L)
    (fclustfn : L → ℚ → List Nat) (lm : String) (lc : ℚ)
    (names names2 : List String) (m : List (List ℚ))
    (hsq : isSquare m = true) (hasym : m ≠ transposeM m) :
    cluster_hierarchical linkfn fclustfn lm lc ⟨names, m⟩ = .error (.dataIntegrity m)
  ∧ cluster_hierarchical linkfn fclustfn lm lc ⟨names2, transposeM m⟩
      = .error (.dataIntegrity (transposeM m)) := by
  have hsq' := (isSquare_eq_true_iff m).mp hsq
  have hnsym : ¬ SymP m := fun h => hasym (sym_entries_transpose_eq m hsq' h).symm
  have h1 : symCheckB m = false := by
    cases hb : symCheckB m with
    | false => rfl
    | true => exact absurd ((symCheckB_eq_true_iff m).mp hb) hnsym
  have h2 : symCheckB (transposeM m) = false := by
    cases hb : symCheckB (transposeM m) with
    | false => rfl
    | true =>
      exact absurd (SymP_of_transposeM m ((symCheckB_eq_true_iff (transposeM m)).mp hb)) hnsym
  constructor
  · unfold cluster_hierarchical
    simp [squareform_ok, h1]
  · unfold cluster_hierarchical
    simp [squareform_ok, h2]

/-- Witness for C1 at the concrete asymmetric matrix `[[0,1],[2,0]]`. -/
theorem C1_witness :
    isSquare [[(0 : ℚ), 1], [2, 0]] = true
  ∧ [[(0 : ℚ), 1], [2, 0]] ≠ transposeM [[(0 : ℚ), 1], [2, 0]]
  ∧ cluster_hierarchical (fun (_ : String) (_ : List ℚ) => ())
      (fun (_ : Unit) (_ : ℚ) => ([] : List Nat)) "single" 0
      ⟨["a", "b"], [[(0 : ℚ), 1], [2, 0]]⟩
      = .error (.dataIntegrity [[(0 : ℚ), 1], [2, 0]]) :=
  ⟨by decide, by decide,
    (C1_asymmetric_abort (fun (_ : String) (_ : List ℚ) => ())
      (fun (_ : Unit) (_ : ℚ) => ([] : List Nat)) "single" 0 ["a", "b"] ["a", "b"]
      [[(0 : ℚ), 1], [2, 0]] (by decide) (by decide)).1⟩

/-- C9: configuring the fine tier with the simple threshold-graph variant
does not cluster at all — the `'simple'` branch of
`cluster_anin_database` raises a NameError on the unbound name `ANIn`
(the popped threshold was stored in `ANIm`). -/
theorem C9_simple_dispatch_error :
    cluster_anin_database (fun (_ : String) (_ : List ℚ) => ())
      (fun (_ : Unit) (_ : ℚ) => ([] : List Nat))
      [⟨"g1.fna", 0⟩] [] "simple" 0 0 "single" = .error (.nameError "ANIn") := rfl

/-- C5: invoking the orchestrator with the coarse stage skipped does not
complete: `gen_nomash_cdb` does place every genome in coarse cluster 0,
but `cluster_genomes` then fails at its return statement because the
local `Mdb` was never assigned (UnboundLocalError), returning nothing. -/
theorem C5_skipmash_unboundlocal :
    cluster_genomes (fun (_ : List BdbRow) => ()) (fun (_ : Unit) => ([] : List NoMashCdbRow))
      (fun (_ : List BdbRow) (_ : List NoMashCdbRow) => ())
      (fun (_ : List NoMashCdbRow) (_ : Unit) => (Except.ok () : Except PyErr Unit))
      [⟨"g1.fna", "/g/g1.fna"⟩] true false = .error (.unboundLocal "Mdb")
  ∧ ∀ bdb : List BdbRow,
      (gen_nomash_cdb bdb).map (fun r => (r.genome, r.location, r.MASH_cluster)) =
        bdb.map (fun r => (r.genome, r.location, 0)) := by
  constructor
  · rfl
  · intro bdb
    simp [gen_nomash_cdb]

/-- C10: requesting to skip only the fine (ANIn) stage aborts before any
result is returned, whether or not the coarse MASH stage ran normally:
with the coarse stage run, `gen_nomani_cdb` fails its unconditional
assertion; with both skipped, the unbound local `Mdb` is hit first. -/
theorem C10_skipanin_abort {M N F : Type} (mashFn : List BdbRow → M)
    (coarseFn : M → List NoMashCdbRow) (aninFn : List BdbRow → List NoMashCdbRow → N)
    (fineFn : List NoMashCdbRow → N → Except PyErr F) (bdb : List BdbRow)
    (skipMash : Bool) :
    cluster_genomes mashFn coarseFn aninFn fineFn bdb skipMash true =
      .error (if skipMash then PyErr.unboundLocal "Mdb"
              else PyErr.assertionError "this part of the program is not written yet") := by
  cases skipMash <;> rfl

/-! ### Graph edge characterization and coverage filtering -/

lemma addNode_edges (g : NXGraph) (v : String) : (addNode g v).edges = g.edges := by
  unfold addNode
  split <;> rfl

lemma addEdge_edges (g : NXGraph) (a b : String) :
    (addEdge g a b).edges = g.edges ++ [(a, b)] := by
  unfold addEdge
  simp [addNode_edges]

lemma foldl_addNode_edges (l : List String) (g : NXGraph) :
    (l.foldl addNode g).edges = g.edges := by
  induction l generalizing g with
  | nil => rfl
  | cons x xs ih => rw [List.foldl_cons, ih, addNode_edges]

lemma make_graph_anin_edges_fold (df : List NdbRow) (c a : ℚ) (g : NXGraph) :
    (df.foldl (fun g r =>
      if c < r.ref_coverage ∧ a < r.ani then addEdge g r.reference r.querry else g) g).edges
    = g.edges ++ (df.filter (fun r =>
        decide (c < r.ref_coverage) && decide (a < r.ani))).map
          (fun r => (r.reference, r.querry)) := by
  induction df generalizing g with
  | nil => simp
  | cons r rest ih =>
    rw [List.foldl_cons]
    by_cases h : c < r.ref_coverage ∧ a < r.ani
    · rw [if_pos h, ih, addEdge_edges]
      have hb : (decide (c < r.ref_coverage) && decide (a < r.ani)) = true := by
        simp [h.1, h.2]
      simp [List.filter_cons, hb, List.append_assoc]
    · rw [if_neg h, ih]
      have hb : (decide (c < r.ref_coverage) && decide (a < r.ani)) = false := by
        by_cases h1 : c < r.ref_coverage
        · have h2 : ¬ a < r.ani := fun h2 => h ⟨h1, h2⟩
          simp [h2]
        · simp [h1]
      simp [List.filter_cons, hb]

/-- C3: a row whose `alignment_coverage` is below the configured coverage
threshold has its identity forced to 0 by the pre-clustering zeroing
step, whatever its raw identity was; and in the threshold-graph variant
an edge arises only from a row whose coverage (and identity) strictly
exceed their thresholds, so a below-threshold pair contributes no edge
and cannot merge its two genomes. -/
theorem C3_low_coverage_zeroed (cov_thresh anin_thresh : ℚ) (d df : List NdbRow) :
    (∀ (i : Nat) (r r' : NdbRow), d[i]? = some r →
        (zero_low_cov cov_thresh d)[i]? = some r' →
        r.alignment_coverage < cov_thresh → r'.ani = 0)
  ∧ (make_graph_anin df cov_thresh anin_thresh).edges =
      (df.filter (fun r =>
        decide (cov_thresh < r.ref_coverage) && decide (anin_thresh < r.ani))).map
          (fun r => (r.reference, r.querry)) := by
  constructor
  · intro i r r' hr hr' hlt
    rw [zero_low_cov, List.getElem?_map, hr, Option.map_some'] at hr'
    have hr'' := Option.some.inj hr'
    rw [← hr'', if_pos (le_of_lt hlt)]
  · unfold make_graph_anin
    rw [make_graph_anin_edges_fold, foldl_addNode_edges]
    rfl

/-- Witness for C3 at a concrete row with coverage 0 against threshold 1:
its identity 1 is zeroed. -/
theorem C3_witness :
    ((0 : ℚ) < 1) ∧ ((⟨"a", "b", 0, 0, 0⟩ : NdbRow).ani = 0) :=
  ⟨by decide,
    (C3_low_coverage_zeroed 1 0 [⟨"a", "b", 1, 0, 0⟩] []).1 0 ⟨"a", "b", 1, 0, 0⟩
      ⟨"a", "b", 0, 0, 0⟩ rfl (by decide) (by decide)⟩

/-! ### Fine-tier identity averaging -/

lemma lookup_ani_eq (db : List NdbRow) (g1 g2 : String) (v : ℚ) (r : NdbRow)
    (hm : r ∈ db) (hr : r.reference = g1) (hq : r.querry = g2)
    (hall : ∀ s ∈ db, s.reference = g1 → s.querry = g2 → s.ani = v) :
    (((db.filter (fun s => decide (s.reference = g1) && decide (s.querry = g2))).map
      (fun s => s.ani)).head?).getD 0 = v := by
  cases hf : db.filter (fun s => decide (s.reference = g1) && decide (s.querry = g2)) with
  | nil =>
    have : r ∈ db.filter (fun s => decide (s.reference = g1) && decide (s.querry = g2)) :=
      List.mem_filter.mpr ⟨hm, by simp [hr, hq]⟩
    rw [hf] at this
    exact absurd this (List.not_mem_nil r)
  | cons hd tl =>
    have hhd : hd ∈ db.filter (fun s => decide (s.reference = g1) && decide (s.querry = g2)) := by
      rw [hf]; exact List.mem_cons_self hd tl
    have hmem := List.mem_filter.mp hhd
    have hcond := hmem.2
    rw [Bool.and_eq_true, decide_eq_true_eq, decide_eq_true_eq] at hcond
    have hani := hall hd hmem.1 hcond.1 hcond.2
    simp [hf, hani]

/-- C6: `average_ani` on a non-self row is the arithmetic mean of the two
directional identities — hence equal for the two orientations of the
pair — while a self row is fixed at identity 1 whatever the table holds,
and the derived `dist` column is `1 - av_ani`. -/
theorem C6_average_symmetric (db : List NdbRow) (a b : String) (x y : ℚ)
    (r1 r2 : NdbRow) (hab : a ≠ b)
    (hr1m : r1 ∈ db) (h1q : r1.querry = a) (h1r : r1.reference = b) (h1a : r1.ani = x)
    (hr2m : r2 ∈ db) (h2q : r2.querry = b) (h2r : r2.reference = a) (h2a : r2.ani = y)
    (hall1 : ∀ r ∈ db, r.reference = b → r.querry = a → r.ani = x)
    (hall2 : ∀ r ∈ db, r.reference = a → r.querry = b → r.ani = y) :
    average_ani r1 db = (x + y) / 2
  ∧ average_ani r2 db = (x + y) / 2
  ∧ (∀ (r : NdbRow) (db' : List NdbRow), r.querry = r.reference → average_ani r db' = 1)
  ∧ (∀ p ∈ with_av_dist db, p.2.2 = 1 - p.2.1 ∧ p.2.1 = average_ani p.1 db) := by
  refine ⟨?_, ?_, ?_, ?_⟩
  · unfold average_ani
    rw [if_neg (by rw [h1q, h1r]; exact hab)]
    rw [h1q, h1r, h1a]
    rw [lookup_ani_eq db a b y r2 hr2m h2r h2q hall2]
  · unfold average_ani
    rw [if_neg (by rw [h2q, h2r]; exact fun h => hab h.symm)]
    rw [h2q, h2r, h2a]
    rw [lookup_ani_eq db b a x r1 hr1m h1r h1q hall1]
    ring
  · intro r db' h
    unfold average_ani
    rw [if_pos h]
  · intro p hp
    unfold with_av_dist at hp
    obtain ⟨r, _, rfl⟩ := List.mem_map.mp hp
    exact ⟨rfl, rfl⟩

/-- Witness for C6 at a concrete two-row table with directional
identities 1 and 0: the averaged identity is their mean. -/
theorem C6_witness :
    ("A" : String) ≠ "B"
  ∧ average_ani ⟨"A", "B", 1, 1, 1⟩ [⟨"A", "B", 1, 1, 1⟩, ⟨"B", "A", 0, 1, 1⟩]
      = ((1 : ℚ) + 0) / 2 :=
  ⟨by decide,
    (C6_average_symmetric [⟨"A", "B", 1, 1, 1⟩, ⟨"B", "A", 0, 1, 1⟩] "A" "B" 1 0
      ⟨"A", "B", 1, 1, 1⟩ ⟨"B", "A", 0, 1, 1⟩ (by decide)
      (by decide) rfl rfl rfl
      (by decide) rfl rfl rfl
      (by decide) (by decide)).1⟩

/-! ### Singleton coarse clusters in the fine stage -/

lemma foldl_dedup_const (g : String) : ∀ (l acc : List String),
    (∀ x ∈ l, x = g) → g ∈ acc →
    l.foldl (fun acc x => if x ∈ acc then acc else acc ++ [x]) acc = acc
  | [], acc, _, _ => rfl
  | x :: xs, acc, hall, hg => by
    rw [List.foldl_cons, hall x (List.mem_cons_self x xs), if_pos hg]
    exact foldl_dedup_const g xs acc (fun y hy => hall y (List.mem_cons_of_mem x hy)) hg

lemma firstDedup_const (g : String) (l : List String) (hne : l ≠ [])
    (hall : ∀ x ∈ l, x = g) : firstDedup l = [g] := by
  cases l with
  | nil => exact absurd rfl hne
  | cons x xs =>
    unfold firstDedup
    rw [List.foldl_cons, if_neg (List.not_mem_nil x), hall x (List.mem_cons_self x xs)]
    have : ([] : List String) ++ [g] = [g] := rfl
    rw [this]
    exact foldl_dedup_const g xs [g]
      (fun y hy => hall y (List.mem_cons_of_mem x hy)) (List.mem_singleton.mpr rfl)

lemma zero_low_cov_reference (c : ℚ) (l : List NdbRow) :
    (zero_low_cov c l).map (fun r => r.reference) = l.map (fun r => r.reference) := by
  unfold zero_low_cov
  rw [List.map_map]
  apply List.map_congr_left
  intro r _
  simp only [Function.comp_apply]
  split <;> rfl

/-- C2 (amended): a coarse cluster whose member list is the single genome
`g` (which therefore appears as a reference in the cluster's metrics
table, its self-alignment having been run) is given the composite fine
label `"<coarseId>_0"` directly, with no averaging, pivot or hierarchical
clustering; the alignment-job generator, however, still emits exactly one
job for a singleton genome list — the self-comparison — rather than
none. -/
theorem C2_singleton_label {L : Type} (linkfn : String → List ℚ → L)
    (fclustfn : L → ℚ → List Nat) (lm : String) (lc cov : ℚ)
    (Cdb : List CdbRow) (Ndb : List NdbRow) (c : Nat) (g : String)
    (hmem : clusterMembers Cdb c = [g])
    (hex : ∃ r ∈ Ndb, r.reference = g) :
    anin_process_cluster linkfn fclustfn lm lc cov Cdb Ndb c
      = .ok [(g, toString c ++ "_0")]
  ∧ ∀ (loc outf : String) (nc mg : Nat) (ne : Bool) (meth : String),
      gen_nucmer_commands [loc] outf nc mg ne meth =
        [gen_nucmer_cmd (outf ++ get_genome_name_from_fasta loc ++ "_vs_"
            ++ get_genome_name_from_fasta loc) loc loc nc mg ne meth] := by
  constructor
  · have hd0 : ∀ s ∈ Ndb.filter (fun r => decide (r.reference ∈ clusterMembers Cdb c)),
        s.reference = g := by
      intro s hs
      have hcond := (List.mem_filter.mp hs).2
      rw [decide_eq_true_eq, hmem] at hcond
      simpa using hcond
    obtain ⟨r, hrm, hrr⟩ := hex
    have hrd0 : r ∈ Ndb.filter (fun r => decide (r.reference ∈ clusterMembers Cdb c)) :=
      List.mem_filter.mpr ⟨hrm, by rw [decide_eq_true_eq, hmem]; simp [hrr]⟩
    have hrefs : firstDedup ((zero_low_cov cov
        (Ndb.filter (fun r => decide (r.reference ∈ clusterMembers Cdb c)))).map
          (fun r => r.reference)) = [g] := by
      rw [zero_low_cov_reference]
      apply firstDedup_const
      · intro hnil
        rw [List.map_eq_nil_iff] at hnil
        rw [hnil] at hrd0
        exact absurd hrd0 (List.not_mem_nil r)
      · intro x hx
        obtain ⟨s, hs, rfl⟩ := List.mem_map.mp hx
        exact hd0 s hs
    unfold anin_process_cluster
    simp only [hrefs]
    rfl
  · intro loc outf nc mg ne meth
    rfl

/-- Counterexample to C2 as stated: for a merged genome table consisting
of a single genome in its own coarse cluster, Step 1 of
`run_anin_on_clusters` still generates one alignment job (the
self-comparison) for that singleton cluster, not zero. -/
theorem C2_counterexample :
    (run_anin_commands [⟨"g1.fa", "/p/g1.fa", 0⟩] "data/ANIn_files/" 65 90 false).length
      = 1 := by
  rfl

/-- Witness for C2 at a concrete singleton coarse cluster. -/
theorem C2_witness :
    anin_process_cluster (fun (_ : String) (_ : List ℚ) => ())
      (fun (_ : Unit) (_ : ℚ) => ([] : List Nat)) "single" 0 0
      [⟨"g1.fa", 0⟩] [⟨"g1.fa", "g1.fa", 1, 1, 1⟩] 0
      = .ok [("g1.fa", toString 0 ++ "_0")] :=
  (C2_singleton_label (fun (_ : String) (_ : List ℚ) => ())
    (fun (_ : Unit) (_ : ℚ) => ([] : List Nat)) "single" 0 0
    [⟨"g1.fa", 0⟩] [⟨"g1.fa", "g1.fa", 1, 1, 1⟩] 0 "g1.fa" (by decide)
    ⟨⟨"g1.fa", "g1.fa", 1, 1, 1⟩, by decide, rfl⟩).1

/-! ### Delta parsing lemmas -/

lemma spec_aligned_length_cons_skip (x : List String) (l : List (List String))
    (h : spec_qualifies x = false) :
    spec_aligned_length (x :: l) = spec_aligned_length l := by
  simp [spec_aligned_length, List.filter_cons, h]

lemma spec_sim_errors_cons_skip (x : List String) (l : List (List String))
    (h : spec_qualifies x = false) :
    spec_sim_errors (x :: l) = spec_sim_errors l := by
  simp [spec_sim_errors, List.filter_cons, h]

lemma spec_aligned_length_cons_keep (x : List String) (l : List (List String))
    (h : spec_qualifies x = true) :
    spec_aligned_length (x :: l) =
      |((toIntPy (x.getD 1 "")).getD 0) - ((toIntPy (x.getD 0 "")).getD 0)|
        + spec_aligned_length l := by
  simp [spec_aligned_length, List.filter_cons, h]

lemma spec_sim_errors_cons_keep (x : List String) (l : List (List String))
    (h : spec_qualifies x = true) :
    spec_sim_errors (x :: l) = (toIntPy (x.getD 4 "")).getD 0 + spec_sim_errors l := by
  simp [spec_sim_errors, List.filter_cons, h]

lemma parse_delta_go_wf (lines : List (List String)) :
    wfLines lines = true → ∀ (a s : ℤ),
    parse_delta_go a s lines
      = .ok (a + spec_aligned_length lines, s + spec_sim_errors lines) := by
  induction lines with
  | nil =>
    intro _ a s
    simp [parse_delta_go, spec_aligned_length, spec_sim_errors]
  | cons l rest ih =>
    intro hwf a s
    rw [wfLines, List.all_cons, Bool.and_eq_true] at hwf
    obtain ⟨hwl, hwrest⟩ := hwf
    cases l with
    | nil => simp [wfLine] at hwl
    | cons w ws =>
      by_cases hskip : (w == "NUCMER" || startsWithChar w '>') = true
      · have hq : spec_qualifies (w :: ws) = false := by
          simp [spec_qualifies, hskip]
        simp only [parse_delta_go]
        rw [if_pos hskip, ih hwrest a s, spec_aligned_length_cons_skip _ _ hq,
          spec_sim_errors_cons_skip _ _ hq]
      · have hskip' : (w == "NUCMER" || startsWithChar w '>') = false :=
          Bool.eq_false_iff.mpr hskip
        by_cases hlen : ((w :: ws).length == 7) = true
        · have hq : spec_qualifies (w :: ws) = true := by
            simp only [spec_qualifies, List.head?_cons, hskip', Bool.not_false, hlen]
            rfl
          rw [wfLine, if_neg hskip, if_pos hlen, Bool.and_eq_true, Bool.and_eq_true] at hwl
          obtain ⟨⟨h0, h1⟩, h4⟩ := hwl
          obtain ⟨c0, hc0⟩ := Option.isSome_iff_exists.mp h0
          obtain ⟨c1, hc1⟩ := Option.isSome_iff_exists.mp h1
          obtain ⟨e4, hc4⟩ := Option.isSome_iff_exists.mp h4
          simp only [parse_delta_go]
          rw [if_neg hskip, if_pos hlen, hc0, hc1, hc4]
          show parse_delta_go (a + |c1 - c0|) (s + e4) rest
            = Except.ok (a + spec_aligned_length ((w :: ws) :: rest),
                s + spec_sim_errors ((w :: ws) :: rest))
          rw [ih hwrest (a + |c1 - c0|) (s + e4)]
          rw [spec_aligned_length_cons_keep _ _ hq, spec_sim_errors_cons_keep _ _ hq,
            hc0, hc1, hc4]
          simp [add_assoc]
        · have hq : spec_qualifies (w :: ws) = false := by
            have h7 : ((w :: ws).length == 7) = false := Bool.eq_false_iff.mpr hlen
            simp only [spec_qualifies, h7, Bool.and_false]
          simp only [parse_delta_go]
          rw [if_neg hskip, if_neg hlen, ih hwrest a s,
            spec_aligned_length_cons_skip _ _ hq, spec_sim_errors_cons_skip _ _ hq]

lemma parse_delta_wf (lines : List (List String)) (hwf : wfLines lines = true) :
    parse_delta lines = .ok (spec_aligned_length lines, spec_sim_errors lines) := by
  have h := parse_delta_go_wf lines hwf 0 0
  simpa [parse_delta] using h

/-- C8: on a tokenized artifact file in the expected format (no blank
line; integer coordinate and error fields on qualifying lines),
`parse_delta` returns exactly the sum over the 7-field data lines of the
absolute difference of fields 1 and 2, paired with the sum of field 5;
run-header (`NUCMER`) and `>`-prefixed lines are skipped, and lines with
any other field count contribute nothing. -/
theorem C8_parse_delta_sums (lines : List (List String)) (hwf : wfLines lines = true) :
    parse_delta lines = .ok (spec_aligned_length lines, spec_sim_errors lines) :=
  parse_delta_wf lines hwf

/-- Witness for C8 on a concrete five-line artifact with one qualifying
record. -/
theorem C8_witness :
    wfLines [["/r.fa", "/q.fa"], ["NUCMER"], [">ref", "4"],
        ["1", "4", "1", "4", "2", "0", "0"], ["0"]] = true
  ∧ parse_delta [["/r.fa", "/q.fa"], ["NUCMER"], [">ref", "4"],
        ["1", "4", "1", "4", "2", "0", "0"], ["0"]]
      = .ok (spec_aligned_length [["/r.fa", "/q.fa"], ["NUCMER"], [">ref", "4"],
          ["1", "4", "1", "4", "2", "0", "0"], ["0"]],
        spec_sim_errors [["/r.fa", "/q.fa"], ["NUCMER"], [">ref", "4"],
          ["1", "4", "1", "4", "2", "0", "0"], ["0"]]) :=
  ⟨by decide, C8_parse_delta_sums _ (by decide)⟩

lemma process_deltadir_go_wf (L : String → ℤ) (files : List DeltaFile) :
    (∀ f ∈ files, wfLines f.lines = true) → ∀ acc : List NdbFullRow,
    process_deltadir_go L acc files
      = .ok (acc ++ files.map (fun f =>
          deltadir_row L f (spec_aligned_length f.lines) (spec_sim_errors f.lines))) := by
  induction files with
  | nil =>
    intro _ acc
    simp [process_deltadir_go]
  | cons f fs ih =>
    intro hwf acc
    have h1 : wfLines f.lines = true := hwf f (List.mem_cons_self f fs)
    have h2 : ∀ g ∈ fs, wfLines g.lines = true :=
      fun g hg => hwf g (List.mem_cons_of_mem f hg)
    simp only [process_deltadir_go]
    rw [parse_delta_wf f.lines h1]
    show process_deltadir_go L
        (acc ++ [deltadir_row L f (spec_aligned_length f.lines) (spec_sim_errors f.lines)]) fs
      = _
    rw [ih h2]
    simp

/-- C7: when every artifact parses (the genome lengths being positive),
a pair whose accumulated aligned length is 0 is not an error: the
pipeline-facing `process_deltadir` still succeeds, the pair's row is
emitted with its names intact, and its identity is the designed
degenerate value 0. -/
theorem C7_zero_alignment_nonfatal (files : List DeltaFile) (L : String → ℤ)
    (hwf : ∀ f ∈ files, wfLines f.lines = true)
    (hpos : ∀ f ∈ files, 0 < L f.qname ∧ 0 < L f.sname) :
    process_deltadir files L
      = .ok (files.map (fun f =>
          deltadir_row L f (spec_aligned_length f.lines) (spec_sim_errors f.lines)))
  ∧ ∀ f ∈ files, spec_aligned_length f.lines = 0 →
      (deltadir_row L f (spec_aligned_length f.lines) (spec_sim_errors f.lines)).ani = 0
    ∧ (deltadir_row L f (spec_aligned_length f.lines) (spec_sim_errors f.lines)).querry
        = f.qname
    ∧ (deltadir_row L f (spec_aligned_length f.lines) (spec_sim_errors f.lines)).reference
        = f.sname := by
  constructor
  · unfold process_deltadir
    rw [process_deltadir_go_wf L files hwf]
    simp
  · intro f hf h0
    refine ⟨?_, rfl, rfl⟩
    simp [deltadir_row, h0]

/-- Witness for C7 on a single artifact with no data lines (aligned
length 0). -/
theorem C7_witness :
    spec_aligned_length [["NUCMER"]] = 0
  ∧ (deltadir_row (fun _ => 5) ⟨"a.fa", "b.fa", [["NUCMER"]]⟩
      (spec_aligned_length [["NUCMER"]]) (spec_sim_errors [["NUCMER"]])).ani = 0 :=
  ⟨by decide,
    ((C7_zero_alignment_nonfatal [⟨"a.fa", "b.fa", [["NUCMER"]]⟩] (fun _ => 5)
      (by intro f hf; rw [List.mem_singleton] at hf; subst hf; rfl)
      (by intro f hf; rw [List.mem_singleton] at hf; subst hf
          exact ⟨by norm_num, by norm_num⟩)).2
      ⟨"a.fa", "b.fa", [["NUCMER"]]⟩ (List.mem_singleton.mpr rfl) (by decide)).1⟩

/-! ### Connected components partition the node set -/

lemma addEdgeComp_flatten_perm (comps : List (List String)) (e : String × String) :
    List.Perm (addEdgeComp comps e).flatten comps.flatten := by
  unfold addEdgeComp
  rw [List.flatten_cons]
  have h := (List.filter_append_perm
    (fun c => decide (e.1 ∈ c) || decide (e.2 ∈ c)) comps).flatten
  rw [List.flatten_append] at h
  exact h

lemma foldl_addEdgeComp_flatten_perm (edges : List (String × String)) :
    ∀ comps : List (List String),
    List.Perm (edges.foldl addEdgeComp comps).flatten comps.flatten := by
  induction edges with
  | nil => intro comps; exact List.Perm.refl _
  | cons e es ih =>
    intro comps
    rw [List.foldl_cons]
    exact (ih (addEdgeComp comps e)).trans (addEdgeComp_flatten_perm comps e)

lemma flatten_map_singleton (l : List String) : (l.map (fun v => [v])).flatten = l := by
  induction l with
  | nil => rfl
  | cons x xs ih => simp [ih]

lemma map_snd_labelComps (comps : List (List String)) :
    ∀ n : Nat, (labelComps n comps).map Prod.snd = comps.flatten := by
  induction comps with
  | nil => intro n; rfl
  | cons c rest ih =>
    intro n
    simp [labelComps, ih (n + 1)]

lemma cluster_graph_count (g : NXGraph) (v : String) :
    ((cluster_graph g).map Prod.snd).count v = g.nodes.count v := by
  unfold cluster_graph connectedComponents
  rw [map_snd_labelComps]
  have h := foldl_addEdgeComp_flatten_perm g.edges (g.nodes.map (fun v => [v]))
  rw [flatten_map_singleton] at h
  exact h.count_eq v

/-! ### Node-set lemmas for graph construction -/

lemma mem_addNode (g : NXGraph) (v w : String) :
    w ∈ (addNode g v).nodes ↔ w = v ∨ w ∈ g.nodes := by
  unfold addNode
  split
  · rename_i h
    constructor
    · exact Or.inr
    · rintro (rfl | hw)
      exacts [h, hw]
  · simp [List.mem_append, or_comm]

lemma addNode_nodup (g : NXGraph) (v : String) (h : g.nodes.Nodup) :
    (addNode g v).nodes.Nodup := by
  unfold addNode
  split
  · exact h
  · rename_i hv
    simp only [List.nodup_append, List.nodup_cons, List.not_mem_nil, not_false_iff,
      List.nodup_nil, and_true, true_and]
    exact ⟨h, by simpa [List.disjoint_singleton] using hv⟩

lemma foldl_addNode_mem (l : List String) : ∀ (g : NXGraph) (w : String),
    w ∈ (l.foldl addNode g).nodes ↔ w ∈ l ∨ w ∈ g.nodes := by
  induction l with
  | nil => intro g w; simp
  | cons x xs ih =>
    intro g w
    rw [List.foldl_cons, ih, mem_addNode]
    simp only [List.mem_cons]
    tauto

lemma foldl_addNode_nodup (l : List String) : ∀ g : NXGraph, g.nodes.Nodup →
    (l.foldl addNode g).nodes.Nodup := by
  induction l with
  | nil => exact fun g h => h
  | cons x xs ih =>
    intro g h
    rw [List.foldl_cons]
    exact ih _ (addNode_nodup g x h)

lemma addEdge_nodes_mem (g : NXGraph) (a b w : String) :
    w ∈ (addEdge g a b).nodes ↔ w = a ∨ w = b ∨ w ∈ g.nodes := by
  show w ∈ (addNode (addNode g a) b).nodes ↔ _
  rw [mem_addNode, mem_addNode]
  tauto

lemma addEdge_nodup (g : NXGraph) (a b : String) (h : g.nodes.Nodup) :
    (addEdge g a b).nodes.Nodup := by
  show (addNode (addNode g a) b).nodes.Nodup
  exact addNode_nodup _ _ (addNode_nodup _ _ h)

lemma make_graph_fold_nodes_mem (df : List MdbRow) (t : ℚ) :
    ∀ (g : NXGraph) (w : String),
    w ∈ (df.foldl (fun g r =>
        if t < r.similarity then addEdge g r.genome1 r.genome2 else g) g).nodes
    ↔ w ∈ g.nodes ∨ ∃ r ∈ df, t < r.similarity ∧ (w = r.genome1 ∨ w = r.genome2) := by
  induction df with
  | nil => intro g w; simp
  | cons r rest ih =>
    intro g w
    rw [List.foldl_cons]
    by_cases h : t < r.similarity
    · rw [if_pos h, ih, addEdge_nodes_mem]
      simp only [List.mem_cons]
      constructor
      · rintro ((rfl | rfl | hg) | ⟨r', hr', hc, hw⟩)
        · exact Or.inr ⟨r, Or.inl rfl, h, Or.inl rfl⟩
        · exact Or.inr ⟨r, Or.inl rfl, h, Or.inr rfl⟩
        · exact Or.inl hg
        · exact Or.inr ⟨r', Or.inr hr', hc, hw⟩
      · rintro (hg | ⟨r', (rfl | hr'), hc, hw⟩)
        · exact Or.inl (Or.inr (Or.inr hg))
        · rcases hw with rfl | rfl
          · exact Or.inl (Or.inl rfl)
          · exact Or.inl (Or.inr (Or.inl rfl))
        · exact Or.inr ⟨r', hr', hc, hw⟩
    · rw [if_neg h, ih]
      simp only [List.mem_cons]
      constructor
      · rintro (hg | ⟨r', hr', hc, hw⟩)
        · exact Or.inl hg
        · exact Or.inr ⟨r', Or.inr hr', hc, hw⟩
      · rintro (hg | ⟨r', (rfl | hr'), hc, hw⟩)
        · exact Or.inl hg
        · exact absurd hc h
        · exact Or.inr ⟨r', hr', hc, hw⟩

lemma make_graph_fold_nodup (df : List MdbRow) (t : ℚ) :
    ∀ g : NXGraph, g.nodes.Nodup →
    (df.foldl (fun g r =>
      if t < r.similarity then addEdge g r.genome1 r.genome2 else g) g).nodes.Nodup := by
  induction df with
  | nil => exact fun g h => h
  | cons r rest ih =>
    intro g h
    rw [List.foldl_cons]
    by_cases hc : t < r.similarity
    · rw [if_pos hc]
      exact ih _ (addEdge_nodup _ _ _ h)
    · rw [if_neg hc]
      exact ih _ h

lemma firstDedup_aux_mem {α : Type} [DecidableEq α] (l : List α) :
    ∀ (acc : List α) (w : α),
    w ∈ l.foldl (fun acc x => if x ∈ acc then acc else acc ++ [x]) acc
      ↔ w ∈ l ∨ w ∈ acc := by
  induction l with
  | nil => intro acc w; simp
  | cons x xs ih =>
    intro acc w
    rw [List.foldl_cons]
    by_cases h : x ∈ acc
    · rw [if_pos h, ih]
      simp only [List.mem_cons]
      constructor
      · tauto
      · rintro ((rfl | hw) | hw)
        exacts [Or.inr h, Or.inl hw, Or.inr hw]
    · rw [if_neg h, ih]
      simp only [List.mem_cons, List.mem_append, List.mem_singleton]
      tauto

lemma firstDedup_mem {α : Type} [DecidableEq α] (l : List α) (w : α) :
    w ∈ firstDedup l ↔ w ∈ l := by
  unfold firstDedup
  rw [firstDedup_aux_mem]
  simp

lemma firstDedup_aux_nodup {α : Type} [DecidableEq α] (l : List α) :
    ∀ acc : List α, acc.Nodup →
    (l.foldl (fun acc x => if x ∈ acc then acc else acc ++ [x]) acc).Nodup := by
  induction l with
  | nil => exact fun acc h => h
  | cons x xs ih =>
    intro acc h
    rw [List.foldl_cons]
    by_cases hx : x ∈ acc
    · rw [if_pos hx]
      exact ih acc h
    · rw [if_neg hx]
      apply ih
      simp only [List.nodup_append, List.nodup_cons, List.not_mem_nil, not_false_iff,
        List.nodup_nil, and_true, true_and]
      exact ⟨h, by simpa [List.disjoint_singleton] using hx⟩

lemma firstDedup_nodup {α : Type} [DecidableEq α] (l : List α) : (firstDedup l).Nodup :=
  firstDedup_aux_nodup l [] List.nodup_nil

lemma make_graph_nodes_nodup (df : List MdbRow) (t : ℚ) :
    (make_graph df t).nodes.Nodup := by
  unfold make_graph
  exact make_graph_fold_nodup df t _ (foldl_addNode_nodup _ emptyGraph List.nodup_nil)

lemma make_graph_mem_nodes (df : List MdbRow) (t : ℚ)
    (hsym : ∀ r ∈ df, r.genome2 ∈ df.map (fun r => r.genome1)) (w : String) :
    w ∈ (make_graph df t).nodes ↔ w ∈ df.map (fun r => r.genome1) := by
  unfold make_graph
  rw [make_graph_fold_nodes_mem, foldl_addNode_mem, firstDedup_mem]
  constructor
  · rintro ((h | h) | ⟨r, hr, hc, (rfl | rfl)⟩)
    · exact h
    · simp [emptyGraph] at h
    · exact List.mem_map.mpr ⟨r, hr, rfl⟩
    · exact hsym r hr
  · intro h
    exact Or.inl (Or.inl h)

lemma two_labels_le_count (l : List (Nat × String)) (i j : Nat) (v : String)
    (hi : (i, v) ∈ l) (hj : (j, v) ∈ l) (hij : i ≠ j) :
    2 ≤ (l.map Prod.snd).count v := by
  induction l with
  | nil => cases hi
  | cons p rest ih =>
    rcases List.mem_cons.mp hi with hpi | hi' <;> rcases List.mem_cons.mp hj with hpj | hj'
    · exfalso
      have h := hpi.trans hpj.symm
      injection h with h1 h2
      exact hij h1
    · rw [← hpi, List.map_cons, List.count_cons_self]
      have hv : v ∈ rest.map Prod.snd := List.mem_map.mpr ⟨(j, v), hj', rfl⟩
      have := List.count_pos_iff.mpr hv
      omega
    · rw [← hpj, List.map_cons, List.count_cons_self]
      have hv : v ∈ rest.map Prod.snd := List.mem_map.mpr ⟨(i, v), hi', rfl⟩
      have := List.count_pos_iff.mpr hv
      omega
    · have h2 := ih hi' hj'
      rw [List.map_cons, List.count_cons]
      split <;> omega

/-- C4: over the clustering primitives of the two tiers — the coarse
similarity graph built from a symmetric all-vs-all table, and the
labelling of a flat-cluster vector over the (duplicate-free) pivot
names — every genome appears exactly once per assignment: each input
genome gets exactly one coarse row, the assignment covers exactly the
input genome set, a genome never carries two coarse labels (the clusters
are pairwise disjoint), and the fine labelling lists each name exactly
once. -/
theorem C4_partition_each_genome_once (df : List MdbRow) (threshold : ℚ)
    (hsym : ∀ r ∈ df, r.genome2 ∈ df.map (fun r => r.genome1))
    (fclust : List Nat) (names : List String)
    (hlen : fclust.length = names.length) (hnd : names.Nodup) :
    (∀ v ∈ df.map (fun r => r.genome1),
        ((cluster_graph (make_graph df threshold)).map Prod.snd).count v = 1)
  ∧ (∀ v, v ∈ (cluster_graph (make_graph df threshold)).map Prod.snd
        ↔ v ∈ df.map (fun r => r.genome1))
  ∧ (∀ i j v, (i, v) ∈ cluster_graph (make_graph df threshold) →
        (j, v) ∈ cluster_graph (make_graph df threshold) → i = j)
  ∧ (gen_cdb_from_fclust fclust names).map Prod.snd = names
  ∧ (∀ v ∈ names, ((gen_cdb_from_fclust fclust names).map Prod.snd).count v = 1) := by
  have hnodup := make_graph_nodes_nodup df threshold
  have hcount := fun v => cluster_graph_count (make_graph df threshold) v
  have hmapsnd : (gen_cdb_from_fclust fclust names).map Prod.snd = names :=
    List.map_snd_zip fclust names (le_of_eq hlen.symm)
  refine ⟨?_, ?_, ?_, hmapsnd, ?_⟩
  · intro v hv
    rw [hcount v]
    exact List.count_eq_one_of_mem hnodup
      ((make_graph_mem_nodes df threshold hsym v).mpr hv)
  · intro v
    constructor
    · intro hv
      have h := List.count_pos_iff.mpr hv
      rw [hcount v] at h
      exact (make_graph_mem_nodes df threshold hsym v).mp (List.count_pos_iff.mp h)
    · intro hv
      have h := List.count_pos_iff.mpr
        ((make_graph_mem_nodes df threshold hsym v).mpr hv)
      rw [← hcount v] at h
      exact List.count_pos_iff.mp h
  · intro i j v hi hj
    by_contra hij
    have h2 := two_labels_le_count _ i j v hi hj hij
    have hv : v ∈ (cluster_graph (make_graph df threshold)).map Prod.snd :=
      List.mem_map.mpr ⟨(i, v), hi, rfl⟩
    have hmem : v ∈ (make_graph df threshold).nodes := by
      have h := List.count_pos_iff.mpr hv
      rw [hcount v] at h
      exact List.count_pos_iff.mp h
    have h1 : ((cluster_graph (make_graph df threshold)).map Prod.snd).count v = 1 := by
      rw [hcount v]
      exact List.count_eq_one_of_mem hnodup hmem
    omega
  · intro v hv
    rw [hmapsnd]
    exact List.count_eq_one_of_mem hnd hv

/-- Witness for C4 on a concrete symmetric two-genome table. -/
theorem C4_witness :
    ("a" : String) ∈ ([⟨"a", "b", 1⟩, ⟨"b", "a", 1⟩] : List MdbRow).map
      (fun r => r.genome1)
  ∧ ((cluster_graph (make_graph [⟨"a", "b", (1 : ℚ)⟩, ⟨"b", "a", 1⟩] 0)).map
      Prod.snd).count "a" = 1 :=
  ⟨by decide,
    (C4_partition_each_genome_once [⟨"a", "b", 1⟩, ⟨"b", "a", 1⟩] 0 (by decide)
      [1, 1] ["a", "b"] rfl (by decide)).1 "a" (by decide)⟩

end DRep
